import Mathlib

/-
Shallow embedding of the ElTable spreadsheet engine
(src/cpp/eltab.h and src/cpp/eltab.cpp).

Modelling conventions:
* C++ machine integers (short, int) are modelled as unbounded Int; every
  numeric value the program ever stores in a token is integral, because the
  result of each binary operation is cast to int immediately (eltab.cpp line
  102).  Arithmetic overflow of int is not modelled.
* Token.n_value is a double in the source, but it only ever holds integral
  values.  Division by a nonzero divisor followed by the cast to int agrees
  with truncated integer division Int.tdiv for all values in int range, since
  every int is exactly representable as a double and rounding the quotient to
  the nearest double can never cross an integer boundary for such operands.
  Division of a nonzero value by zero yields an infinity, which the isinf
  check at eltab.cpp line 95 detects.  Division of zero by zero yields NaN,
  which isinf does not detect; the subsequent cast of NaN to int is
  implementation-defined and modelled by the constant nan_cast.
* Exceptions are modelled with Except; a thrown exception carries the mutated
  state with it, because map_ref_cells is a data member and is not rolled
  back by stack unwinding.
* The unordered_map map_ref_cells is modelled as an association list with
  lookup clookup and insert-or-assign cset.
* Recursion through the cell graph is bounded by an explicit fuel parameter,
  an artifact of the embedding; the source terminates because every recursive
  parse_reference call first inserts a fresh key into map_ref_cells.  All
  statements below either quantify over fuel or use a concrete fuel that is
  large enough for the instance at hand.
-/

/-- Token (eltab.h lines 75 to 96): tagged value; T_UNDEFINED is the Pending
state used for cycle detection, T_NUMBER carries n_value, T_STRING carries
s_value. -/
inductive Token where
  | T_UNDEFINED : Token
  | T_NUMBER (n_value : Int) : Token
  | T_STRING (s_value : String) : Token
deriving DecidableEq, Repr

/-- Token.to_string (eltab.h lines 87 to 90): numbers render via the int cast,
everything else renders s_value; a default-constructed token renders as the
empty string. -/
def Token.to_string : Token → String
  | .T_NUMBER n => ToString.toString n
  | .T_STRING s => s
  | .T_UNDEFINED => ""

/-- Token.is_incomplete (eltab.h line 95). -/
def Token.is_incomplete : Token → Bool
  | .T_UNDEFINED => true
  | _ => false

/-- oper (eltab.h line 101). -/
inductive oper where
  | OP_NONE | OP_ADD | OP_SUB | OP_MUL | OP_DIV | OP_UNKNOWN
deriving DecidableEq, Repr

/-- is_string_literal (eltab.h lines 14 to 16); indexing an empty std::string
at 0 reads the terminating null character, so the empty string is not a
string literal. -/
def is_string_literal (s : String) : Bool :=
  s.data.headD (Char.ofNat 0) == '\''

/-- is_expression (eltab.h lines 19 to 21). -/
def is_expression (s : String) : Bool :=
  s.data.headD (Char.ofNat 0) == '='

/-- is_number (eltab.h lines 24 to 28): nonempty and all digits. -/
def is_number (s : String) : Bool :=
  !s.isEmpty && s.data.all (fun c => c.isDigit)

/-- get_cell_by_coords (eltab.h lines 31 to 44).  Note the second branch
computes the character code 97 + col, not 97 + (col - 26). -/
def get_cell_by_coords (coords : Int × Int) : String :=
  let row := coords.1
  let col := coords.2
  let c : Char :=
    if col < 26 then Char.ofNat (65 + col).toNat
    else if 26 ≤ col ∧ col < 52 then Char.ofNat (97 + col).toNat
    else ' '
  String.mk [c] ++ ToString.toString (row + 1)

/-- get_number_by_str (eltab.h lines 48 to 58), iterator recast: the current
character cur is consumed unconditionally (even when it is not a digit, the
source computes *it - 48 for it), then digits keep being consumed while the
next character is a digit.  Returns the accumulated value and the characters
after the last consumed one, which is where the enclosing for loop resumes
after its increment.  int overflow is not modelled. -/
def get_number_by_str : Char → List Char → Int → Int × List Char
  | cur, rest, num =>
    let num := (cur.toNat : Int) - 48 + num * 10
    match rest with
    | [] => (num, [])
    | c :: cs => if c.isDigit then get_number_by_str c cs num else (num, rest)

/-- Expr (eltab.h lines 66 to 71): m_value is the formula text without the
leading marker (main strips it at eltab.cpp line 271). -/
structure Expr where
  m_coords : Int × Int
  m_value : String
deriving DecidableEq, Repr

/-- The data members of Tokenizer (eltab.h lines 103 to 110). -/
structure St where
  m_rows : Int
  m_cols : Int
  m_table : List (List String)
  map_ref_cells : List (String × Token)
deriving DecidableEq, Repr

/-- unordered_map::find, modelled on the association list. -/
def clookup : List (String × Token) → String → Option Token
  | [], _ => none
  | (k, v) :: rest, key => if k = key then some v else clookup rest key

/-- unordered_map insert-or-assign: emplace on an absent key and operator[]
assignment are both modelled by cset (each call site is guarded so that the
relevant one applies). -/
def cset : List (String × Token) → String → Token → List (String × Token)
  | [], key, tok => [(key, tok)]
  | (k, v) :: rest, key, tok =>
      if k = key then (k, tok) :: rest else (k, v) :: cset rest key tok

/-- is_ref_candidate (eltab.h lines 114 to 118). -/
def is_ref_candidate (st : St) (c : Char) : Bool :=
  decide ((st.m_cols ≤ 26 ∧ 65 ≤ (c.toNat : Int) ∧ (c.toNat : Int) ≤ 65 + (st.m_cols - 1)) ∨
    (26 < st.m_cols ∧ st.m_cols ≤ 52 ∧ 97 ≤ (c.toNat : Int) ∧
      (c.toNat : Int) ≤ 97 + st.m_cols - 26 - 1))

/-- get_col_by_char (eltab.h lines 121 to 125). -/
def get_col_by_char (st : St) (c : Char) : Int :=
  if st.m_cols ≤ 26 then (c.toNat : Int) - 65
  else if 26 < st.m_cols ∧ st.m_cols ≤ 52 then (c.toNat : Int) - 97
  else -1

/-- get_operator (eltab.h lines 128 to 137). -/
def get_operator (ch : Char) : oper :=
  if ch = '*' then .OP_MUL
  else if ch = '/' then .OP_DIV
  else if ch = '+' then .OP_ADD
  else if ch = '-' then .OP_SUB
  else .OP_UNKNOWN

/-- is_operator (eltab.h lines 140 to 142). -/
def is_operator (ch : Char) : Bool :=
  get_operator ch != .OP_UNKNOWN

/-- The exception kinds thrown by the engine.  fuel_out is an artifact of the
fuel-bounded embedding and corresponds to no source behaviour. -/
inductive Exc where
  | domain_error (msg : String)
  | logic_error (msg : String)
  | fuel_out
deriving DecidableEq, Repr

/-- static_cast to int of the NaN produced by 0.0 / 0.0: implementation
defined in C++; on x86-64 the conversion yields the minimal int.  No theorem
below depends on the particular value. -/
def nan_cast : Int := -2147483648

/-- evaluate (eltab.cpp lines 77 to 105).  The two pops from the operand
vector are performed at the call site (push_reduce); evaluate receives the
popped left and right operands.  The cast to int after the switch is the
identity for addition, subtraction and multiplication of integral values and
is Int.tdiv composed into the division case; see the header comment. -/
def evaluate (left right : Token) (op : oper) : Except String Token :=
  match left, right with
  | .T_NUMBER l, .T_NUMBER r =>
    match op with
    | .OP_ADD => .ok (.T_NUMBER (l + r))
    | .OP_SUB => .ok (.T_NUMBER (l - r))
    | .OP_MUL => .ok (.T_NUMBER (l * r))
    | .OP_DIV =>
        if r = 0 then
          if l = 0 then .ok (.T_NUMBER nan_cast)
          else .error ("#E_INFINITE")
        else .ok (.T_NUMBER (Int.tdiv l r))
    | _ => .error ("#E_UNKNOWN_OP")
  | _, _ => .error ("#E_UNEXP_EXPR")

/-- The push-then-immediately-reduce step that both the digit branch
(eltab.cpp lines 129 to 135) and the reference branch (lines 163 to 169) of
parse_expr perform: push newTok; when the stack then holds exactly two
operands and an operator is pending, pop both at once, apply the operator and
push the result.  Returns the new stack, the new pending operator and, when a
reduction happened, the token the reduction assigned to the local tok. -/
def push_reduce (toks : List Token) (op : oper) (newTok : Token) :
    Except String (List Token × oper × Option Token) :=
  match newTok :: toks, op with
  | [r, l], .OP_ADD | [r, l], .OP_SUB | [r, l], .OP_MUL | [r, l], .OP_DIV =>
      (match evaluate l r op with
       | .ok t => .ok ([t], .OP_NONE, some t)
       | .error m => .error m)
  | ts, o => .ok (ts, o, none)

/-- The character scan loop of parse_expr (eltab.cpp lines 120 to 174)
together with the trailing single-token case (lines 177 to 181).  pref is the
resolver invoked for an uncached reference (the parse_reference call at line
161); the operand stack toks keeps its most recent element first (vector
back); tok is the local Token variable of parse_expr.  fuel bounds the number
of loop iterations; one unit per consumed character always suffices. -/
def parse_loop (pref : St → Int × Int → Except Exc Token × St) :
    Nat → St → List Token → oper → Token → List Char → Except Exc Token × St
  | 0, st, _, _, _, _ => (.error .fuel_out, st)
  | _ + 1, st, toks, _, tok, [] =>
      (match toks with
       | [t] => (.ok t, st)
       | _ => (.ok tok, st))
  | fuel + 1, st, toks, op, tok, c :: cs =>
    if is_operator c then
      if op != .OP_NONE || toks.isEmpty then
        (.error (.domain_error ("#E_UNEXP_SYMBOL")), st)
      else parse_loop pref fuel st toks (get_operator c) tok cs
    else if c.isDigit then
      match get_number_by_str c cs 0 with
      | (n, rest) =>
        match push_reduce toks op (.T_NUMBER n) with
        | .error m => (.error (.domain_error m), st)
        | .ok (toks', op', tokOpt) =>
            parse_loop pref fuel st toks' op' (tokOpt.getD tok) rest
    else if is_ref_candidate st c then
      let col := get_col_by_char st c
      match (match cs with
             | [] => ((0 : Int), ([] : List Char))
             | c2 :: cs2 => get_number_by_str c2 cs2 0) with
      | (n, rest) =>
        let row := n - 1
        if row + 1 > st.m_rows ∨ row < 0 then
          (.error (.domain_error ("#E_INVALID_REF")), st)
        else
          let scell := get_cell_by_coords (row, col)
          match clookup st.map_ref_cells scell with
          | some t =>
              if t.is_incomplete then
                (.error (.domain_error ("#E_CROSS_REF")), st)
              else
                match push_reduce toks op t with
                | .error m => (.error (.domain_error m), st)
                | .ok (toks', op', tokOpt) =>
                    parse_loop pref fuel st toks' op' (tokOpt.getD t) rest
          | none =>
              match pref st (row, col) with
              | (.ok t, st') =>
                  (match push_reduce toks op t with
                   | .error m => (.error (.domain_error m), st')
                   | .ok (toks', op', tokOpt) =>
                       parse_loop pref fuel st' toks' op' (tokOpt.getD t) rest)
              | (.error e, st') => (.error e, st')
    else (.error (.domain_error ("#E_UNEXP_SYMB")), st)

/-- stoi on an all-digit string (eltab.cpp line 59); the out_of_range throw
on overflow is not modelled. -/
def str_to_int (s : String) : Int :=
  s.data.foldl (fun a c => a * 10 + ((c.toNat : Int) - 48)) 0

/-- parse_reference (eltab.cpp lines 34 to 74).  The expression branch is the
parse_expr call at line 51, inlined at fuel (parse_expr below unfolds to
exactly this parse_loop application); fuel bounds the depth of the reference
chain.  Observe that the Pending reservation (line 45) happens before the
recursive evaluation, that a domain_error from the nested parse_expr is
caught and converted to a T_STRING token (line 55), and that the commit at
line 71 overwrites the reserved entry. -/
def parse_reference : Nat → St → Int × Int → Except Exc Token × St
  | 0, st, _ => (.error .fuel_out, st)
  | fuel + 1, st, coords =>
    let row := coords.1
    let col := coords.2
    let s := (st.m_table.getD row.toNat []).getD col.toNat ""
    let scell := get_cell_by_coords coords
    if (clookup st.map_ref_cells scell).isSome then
      (.error (.logic_error ("Internal error: parse_reference()")), st)
    else
      let st1 : St := { st with map_ref_cells := cset st.map_ref_cells scell .T_UNDEFINED }
      if is_expression s then
        let body := s.drop 1
        match parse_loop (parse_reference fuel) (body.data.length + 1) st1 []
            .OP_NONE .T_UNDEFINED body.data with
        | (.ok t, st2) =>
            (.ok t, { st2 with map_ref_cells := cset st2.map_ref_cells scell t })
        | (.error (.domain_error m), st2) =>
            (.ok (.T_STRING m),
             { st2 with map_ref_cells := cset st2.map_ref_cells scell (.T_STRING m) })
        | (.error e, st2) => (.error e, st2)
      else if is_number s then
        (.ok (.T_NUMBER (str_to_int s)),
         { st1 with map_ref_cells := cset st1.map_ref_cells scell (.T_NUMBER (str_to_int s)) })
      else if is_string_literal s then
        (.ok (.T_STRING (s.drop 1)),
         { st1 with map_ref_cells := cset st1.map_ref_cells scell (.T_STRING (s.drop 1)) })
      else if s.isEmpty then
        (.ok (.T_STRING ("")),
         { st1 with map_ref_cells := cset st1.map_ref_cells scell (.T_STRING ("")) })
      else (.error (.domain_error ("E_WRONG_REF")), st1)

/-- parse_expr (eltab.cpp lines 115 to 182): empty operand stack, no pending
operator, default-constructed local tok, then the scan loop.  fuel is the
allowed depth of parse_reference calls. -/
def parse_expr (fuel : Nat) (st : St) (s : String) : Except Exc Token × St :=
  parse_loop (parse_reference fuel) (s.data.length + 1) st [] .OP_NONE .T_UNDEFINED s.data

/-- run (eltab.cpp lines 6 to 30).  Skips cells that already have a cache
entry, reserves a Pending entry, evaluates, converts a caught domain_error to
a T_STRING token, reports a caught logic_error on the diagnostic channel
(returned as the list of messages) while the local tok keeps its default
value, and commits.  fuel exhaustion inside parse_expr aborts the embedding
with none; it is unreachable for sufficiently large fuel. -/
def run (fuel : Nat) (st : St) : List Expr → Option (St × List String)
  | [] => some (st, [])
  | e :: rest =>
    let scell := get_cell_by_coords e.m_coords
    if (clookup st.map_ref_cells scell).isSome then run fuel st rest
    else
      let st1 : St := { st with map_ref_cells := cset st.map_ref_cells scell .T_UNDEFINED }
      match parse_expr fuel st1 e.m_value with
      | (.ok t, st2) =>
          run fuel { st2 with map_ref_cells := cset st2.map_ref_cells scell t } rest
      | (.error (.domain_error m), st2) =>
          run fuel { st2 with map_ref_cells := cset st2.map_ref_cells scell (.T_STRING m) } rest
      | (.error (.logic_error m), st2) =>
          (run fuel { st2 with map_ref_cells := cset st2.map_ref_cells scell .T_UNDEFINED } rest).map
            (fun r => (r.1, m :: r.2))
      | (.error .fuel_out, _) => none

/-- get_value (eltab.h lines 166 to 168).  operator[] default-inserts a token
for a missing key and renders it as the empty string; the insertion side
effect does not affect the returned string and is not modelled. -/
def get_value (st : St) (coords : Int × Int) : String :=
  ((clookup st.map_ref_cells (get_cell_by_coords coords)).getD .T_UNDEFINED).to_string

/-
Helper lemmas about the association-list cache.
-/

theorem clookup_cset (c : List (String × Token)) (k key : String) (tok : Token) :
    clookup (cset c k tok) key = if k = key then some tok else clookup c key := by
  induction c with
  | nil => by_cases h : k = key <;> simp [cset, clookup, h]
  | cons hd tl ih =>
    obtain ⟨k', v'⟩ := hd
    by_cases h1 : k' = k
    · by_cases h2 : k = key <;> simp [cset, clookup, h1, h2]
    · by_cases h2 : k' = key
      · subst h2
        have h3 : ¬ k = k' := fun h => h1 h.symm
        simp [cset, clookup, h1, h3]
      · simp [cset, clookup, h1, h2, ih]

theorem clookup_cset_isSome {c : List (String × Token)} {key : String}
    (k : String) (tok : Token) (h : (clookup c key).isSome) :
    (clookup (cset c k tok) key).isSome := by
  rw [clookup_cset]
  split <;> simp [h]

theorem clookup_cset_ne {c : List (String × Token)} {k key : String}
    (tok : Token) (h : k ≠ key) :
    clookup (cset c k tok) key = clookup c key := by
  rw [clookup_cset, if_neg h]

/-
Cache growth: no operation of the engine ever removes a cache entry.
The parse_loop lemma is parametric in the resolver pref; it is then
instantiated with parse_reference by induction on fuel.
-/

theorem parse_loop_mono
    (pref : St → Int × Int → Except Exc Token × St)
    (hpref : ∀ st coords key, (clookup st.map_ref_cells key).isSome →
      (clookup ((pref st coords).2).map_ref_cells key).isSome) :
    ∀ (fuel : Nat) (st : St) (toks : List Token) (op : oper) (tok : Token)
      (chars : List Char) (key : String),
      (clookup st.map_ref_cells key).isSome →
      (clookup ((parse_loop pref fuel st toks op tok chars).2).map_ref_cells key).isSome := by
  intro fuel
  induction fuel with
  | zero =>
    intro st toks op tok chars key h
    simpa [parse_loop] using h
  | succ n ih =>
    intro st toks op tok chars key h
    match chars with
    | [] =>
      match toks with
      | [t] => simpa [parse_loop] using h
      | [] => simpa [parse_loop] using h
      | _ :: _ :: _ => simpa [parse_loop] using h
    | c :: cs =>
      rcases hnr : (match cs with
        | [] => ((0 : Int), ([] : List Char))
        | c2 :: cs2 => get_number_by_str c2 cs2 0) with ⟨n2, rest2⟩
      simp only [parse_loop, hnr]
      split
      · split
        · exact h
        · exact ih _ _ _ _ _ _ h
      · split
        · split
          · exact h
          · exact ih _ _ _ _ _ _ h
        · split
          · split
            · exact h
            · split
              · split
                · exact h
                · split
                  · exact h
                  · exact ih _ _ _ _ _ _ h
              · split
                · rename_i t st' hpr
                  have h2 := hpref st (n2 - 1, get_col_by_char st c) key h
                  rw [hpr] at h2
                  split
                  · exact h2
                  · exact ih _ _ _ _ _ _ h2
                · rename_i e st' hpr
                  have h2 := hpref st (n2 - 1, get_col_by_char st c) key h
                  rw [hpr] at h2
                  exact h2
          · exact h

theorem parse_reference_mono :
    ∀ (fuel : Nat) (st : St) (coords : Int × Int) (key : String),
      (clookup st.map_ref_cells key).isSome →
      (clookup ((parse_reference fuel st coords).2).map_ref_cells key).isSome := by
  intro fuel
  induction fuel with
  | zero =>
    intro st coords key h
    simpa [parse_reference] using h
  | succ n ih =>
    intro st coords key h
    simp only [parse_reference]
    split
    · exact h
    · split
      · split
        · rename_i t st2 heq
          have hst2 := congrArg Prod.snd heq.symm
          simp only [Prod.snd] at hst2
          rw [hst2]
          exact clookup_cset_isSome _ _
            (parse_loop_mono (parse_reference n) ih _ _ _ _ _ _ _
              (clookup_cset_isSome _ _ h))
        · rename_i m st2 heq
          have hst2 := congrArg Prod.snd heq.symm
          simp only [Prod.snd] at hst2
          rw [hst2]
          exact clookup_cset_isSome _ _
            (parse_loop_mono (parse_reference n) ih _ _ _ _ _ _ _
              (clookup_cset_isSome _ _ h))
        · rename_i e st2 heq
          have hst2 := congrArg Prod.snd heq.symm
          simp only [Prod.snd] at hst2
          rw [hst2]
          exact parse_loop_mono (parse_reference n) ih _ _ _ _ _ _ _
            (clookup_cset_isSome _ _ h)
      · split
        · exact clookup_cset_isSome _ _ (clookup_cset_isSome _ _ h)
        · split
          · exact clookup_cset_isSome _ _ (clookup_cset_isSome _ _ h)
          · split
            · exact clookup_cset_isSome _ _ (clookup_cset_isSome _ _ h)
            · exact clookup_cset_isSome _ _ h

theorem parse_expr_mono (fuel : Nat) (st : St) (s : String) (key : String)
    (h : (clookup st.map_ref_cells key).isSome) :
    (clookup ((parse_expr fuel st s).2).map_ref_cells key).isSome :=
  parse_loop_mono (parse_reference fuel) (parse_reference_mono fuel) _ _ _ _ _ _ _ h

theorem run_mono :
    ∀ (exprs : List Expr) (fuel : Nat) (st : St) (res : St × List String) (key : String),
      run fuel st exprs = some res →
      (clookup st.map_ref_cells key).isSome →
      (clookup res.1.map_ref_cells key).isSome := by
  intro exprs
  induction exprs with
  | nil =>
    intro fuel st res key hr h
    simp only [run, Option.some_inj] at hr
    rw [← hr]
    exact h
  | cons e rest ih =>
    intro fuel st res key hr h
    simp only [run] at hr
    split at hr
    · exact ih _ _ _ _ hr h
    · split at hr
      · rename_i t st2 heq
        have hst2 := congrArg Prod.snd heq.symm
        simp only [Prod.snd] at hst2
        rw [hst2] at hr
        exact ih _ _ _ _ hr
          (clookup_cset_isSome _ _ (parse_expr_mono _ _ _ _ (clookup_cset_isSome _ _ h)))
      · rename_i m st2 heq
        have hst2 := congrArg Prod.snd heq.symm
        simp only [Prod.snd] at hst2
        rw [hst2] at hr
        exact ih _ _ _ _ hr
          (clookup_cset_isSome _ _ (parse_expr_mono _ _ _ _ (clookup_cset_isSome _ _ h)))
      · rename_i m st2 heq
        have hst2 := congrArg Prod.snd heq.symm
        simp only [Prod.snd] at hst2
        rw [hst2] at hr
        obtain ⟨r2, hrun, hres⟩ := Option.map_eq_some'.mp hr
        have h2 := ih _ _ _ key hrun
          (clookup_cset_isSome _ _ (parse_expr_mono _ _ _ _ (clookup_cset_isSome _ _ h)))
        rw [← hres]
        exact h2
      · exact absurd hr (by simp)

/-- After a successful run, every cell of the work list has a cache entry. -/
theorem run_covers :
    ∀ (exprs : List Expr) (fuel : Nat) (st : St) (res : St × List String),
      run fuel st exprs = some res →
      ∀ e ∈ exprs, (clookup res.1.map_ref_cells (get_cell_by_coords e.m_coords)).isSome := by
  intro exprs
  induction exprs with
  | nil =>
    intro fuel st res hr e he
    exact absurd he (List.not_mem_nil e)
  | cons e0 rest ih =>
    intro fuel st res hr e he
    rcases List.mem_cons.mp he with he0 | hrest
    · subst he0
      simp only [run] at hr
      split at hr
      · rename_i hsome
        exact run_mono _ _ _ _ _ hr hsome
      · split at hr
        · rename_i t st2 heq
          have hst2 := congrArg Prod.snd heq.symm
          simp only [Prod.snd] at hst2
          rw [hst2] at hr
          exact run_mono _ _ _ _ _ hr
            (clookup_cset_isSome _ _ (parse_expr_mono _ _ _ _ (by simp [clookup_cset])))
        · rename_i m st2 heq
          have hst2 := congrArg Prod.snd heq.symm
          simp only [Prod.snd] at hst2
          rw [hst2] at hr
          exact run_mono _ _ _ _ _ hr
            (clookup_cset_isSome _ _ (parse_expr_mono _ _ _ _ (by simp [clookup_cset])))
        · rename_i m st2 heq
          have hst2 := congrArg Prod.snd heq.symm
          simp only [Prod.snd] at hst2
          rw [hst2] at hr
          obtain ⟨r2, hrun, hres⟩ := Option.map_eq_some'.mp hr
          have h2 := run_mono _ _ _ _ (get_cell_by_coords e.m_coords) hrun
            (clookup_cset_isSome _ _ (parse_expr_mono _ _ _ _ (by simp [clookup_cset])))
          rw [← hres]
          exact h2
        · exact absurd hr (by simp)
    · simp only [run] at hr
      split at hr
      · exact ih _ _ _ hr e hrest
      · split at hr
        · exact ih _ _ _ hr e hrest
        · exact ih _ _ _ hr e hrest
        · obtain ⟨r2, hrun, hres⟩ := Option.map_eq_some'.mp hr
          have h2 := ih _ _ _ hrun e hrest
          rw [← hres]
          exact h2
        · exact absurd hr (by simp)

/-
Preservation: once a cache entry holds a resolved (non-Pending) token, no
later operation of the engine changes it.
-/

theorem parse_loop_preserve
    (pref : St → Int × Int → Except Exc Token × St)
    (hpref : ∀ st coords key v, clookup st.map_ref_cells key = some v →
      v.is_incomplete = false →
      clookup ((pref st coords).2).map_ref_cells key = some v) :
    ∀ (fuel : Nat) (st : St) (toks : List Token) (op : oper) (tok : Token)
      (chars : List Char) (key : String) (v : Token),
      clookup st.map_ref_cells key = some v →
      v.is_incomplete = false →
      clookup ((parse_loop pref fuel st toks op tok chars).2).map_ref_cells key = some v := by
  intro fuel
  induction fuel with
  | zero =>
    intro st toks op tok chars key v h hv
    simpa [parse_loop] using h
  | succ n ih =>
    intro st toks op tok chars key v h hv
    match chars with
    | [] =>
      match toks with
      | [t] => simpa [parse_loop] using h
      | [] => simpa [parse_loop] using h
      | _ :: _ :: _ => simpa [parse_loop] using h
    | c :: cs =>
      rcases hnr : (match cs with
        | [] => ((0 : Int), ([] : List Char))
        | c2 :: cs2 => get_number_by_str c2 cs2 0) with ⟨n2, rest2⟩
      simp only [parse_loop, hnr]
      split
      · split
        · exact h
        · exact ih _ _ _ _ _ _ _ h hv
      · split
        · split
          · exact h
          · exact ih _ _ _ _ _ _ _ h hv
        · split
          · split
            · exact h
            · split
              · split
                · exact h
                · split
                  · exact h
                  · exact ih _ _ _ _ _ _ _ h hv
              · split
                · rename_i t st' hpr
                  have h2 := hpref st (n2 - 1, get_col_by_char st c) key v h hv
                  rw [hpr] at h2
                  split
                  · exact h2
                  · exact ih _ _ _ _ _ _ _ h2 hv
                · rename_i e st' hpr
                  have h2 := hpref st (n2 - 1, get_col_by_char st c) key v h hv
                  rw [hpr] at h2
                  exact h2
          · exact h

theorem parse_reference_preserve :
    ∀ (fuel : Nat) (st : St) (coords : Int × Int) (key : String) (v : Token),
      clookup st.map_ref_cells key = some v →
      v.is_incomplete = false →
      clookup ((parse_reference fuel st coords).2).map_ref_cells key = some v := by
  intro fuel
  induction fuel with
  | zero =>
    intro st coords key v h hv
    simpa [parse_reference] using h
  | succ n ih =>
    intro st coords key v h hv
    simp only [parse_reference]
    split
    · exact h
    · rename_i hnone
      have hne : get_cell_by_coords coords ≠ key := by
        intro hk
        rw [hk, h] at hnone
        exact hnone rfl
      have h1 : clookup (cset st.map_ref_cells (get_cell_by_coords coords) .T_UNDEFINED) key
          = some v := by rw [clookup_cset_ne _ hne]; exact h
      split
      · split
        · rename_i t st2 heq
          have hst2 := congrArg Prod.snd heq.symm
          simp only [Prod.snd] at hst2
          rw [hst2]
          rw [clookup_cset_ne _ hne]
          exact parse_loop_preserve (parse_reference n) ih _ _ _ _ _ _ _ _ h1 hv
        · rename_i m st2 heq
          have hst2 := congrArg Prod.snd heq.symm
          simp only [Prod.snd] at hst2
          rw [hst2]
          rw [clookup_cset_ne _ hne]
          exact parse_loop_preserve (parse_reference n) ih _ _ _ _ _ _ _ _ h1 hv
        · rename_i e st2 heq
          have hst2 := congrArg Prod.snd heq.symm
          simp only [Prod.snd] at hst2
          rw [hst2]
          exact parse_loop_preserve (parse_reference n) ih _ _ _ _ _ _ _ _ h1 hv
      · split
        · rw [clookup_cset_ne _ hne]
          exact h1
        · split
          · rw [clookup_cset_ne _ hne]
            exact h1
          · split
            · rw [clookup_cset_ne _ hne]
              exact h1
            · exact h1

theorem parse_expr_preserve (fuel : Nat) (st : St) (s : String) (key : String) (v : Token)
    (h : clookup st.map_ref_cells key = some v) (hv : v.is_incomplete = false) :
    (clookup ((parse_expr fuel st s).2).map_ref_cells key) = some v :=
  parse_loop_preserve (parse_reference fuel) (parse_reference_preserve fuel) _ _ _ _ _ _ _ _ h hv

theorem run_preserve :
    ∀ (exprs : List Expr) (fuel : Nat) (st : St) (res : St × List String)
      (key : String) (v : Token),
      run fuel st exprs = some res →
      clookup st.map_ref_cells key = some v →
      v.is_incomplete = false →
      clookup res.1.map_ref_cells key = some v := by
  intro exprs
  induction exprs with
  | nil =>
    intro fuel st res key v hr h hv
    simp only [run, Option.some_inj] at hr
    rw [← hr]
    exact h
  | cons e rest ih =>
    intro fuel st res key v hr h hv
    simp only [run] at hr
    split at hr
    · exact ih _ _ _ _ _ hr h hv
    · rename_i hnone
      have hne : get_cell_by_coords e.m_coords ≠ key := by
        intro hk
        rw [hk, h] at hnone
        exact hnone rfl
      have h1 : clookup (cset st.map_ref_cells (get_cell_by_coords e.m_coords) .T_UNDEFINED) key
          = some v := by rw [clookup_cset_ne _ hne]; exact h
      split at hr
      · rename_i t st2 heq
        have hst2 := congrArg Prod.snd heq.symm
        simp only [Prod.snd] at hst2
        rw [hst2] at hr
        exact ih _ _ _ _ _ hr
          (by rw [clookup_cset_ne _ hne]; exact parse_expr_preserve _ _ _ _ _ h1 hv) hv
      · rename_i m st2 heq
        have hst2 := congrArg Prod.snd heq.symm
        simp only [Prod.snd] at hst2
        rw [hst2] at hr
        exact ih _ _ _ _ _ hr
          (by rw [clookup_cset_ne _ hne]; exact parse_expr_preserve _ _ _ _ _ h1 hv) hv
      · rename_i m st2 heq
        have hst2 := congrArg Prod.snd heq.symm
        simp only [Prod.snd] at hst2
        rw [hst2] at hr
        obtain ⟨r2, hrun, hres⟩ := Option.map_eq_some'.mp hr
        have h2 := ih _ _ _ key v hrun
          (by rw [clookup_cset_ne _ hne]; exact parse_expr_preserve _ _ _ _ _ h1 hv) hv
        rw [← hres]
        exact h2
      · exact absurd hr (by simp)

/-
Under the normal call protocol the resolver is only invoked after a cache
miss, so the internal-error branch of parse_reference never fires: no
evaluation ever produces a logic_error.
-/

theorem parse_loop_no_logic
    (pref : St → Int × Int → Except Exc Token × St)
    (hpref : ∀ st coords m,
      clookup st.map_ref_cells (get_cell_by_coords coords) = none →
      (pref st coords).1 ≠ .error (.logic_error m)) :
    ∀ (fuel : Nat) (st : St) (toks : List Token) (op : oper) (tok : Token)
      (chars : List Char) (m : String),
      (parse_loop pref fuel st toks op tok chars).1 ≠ .error (.logic_error m) := by
  intro fuel
  induction fuel with
  | zero =>
    intro st toks op tok chars m
    simp [parse_loop]
  | succ n ih =>
    intro st toks op tok chars m
    match chars with
    | [] =>
      match toks with
      | [t] => simp [parse_loop]
      | [] => simp [parse_loop]
      | _ :: _ :: _ => simp [parse_loop]
    | c :: cs =>
      rcases hnr : (match cs with
        | [] => ((0 : Int), ([] : List Char))
        | c2 :: cs2 => get_number_by_str c2 cs2 0) with ⟨n2, rest2⟩
      simp only [parse_loop, hnr]
      split
      · split
        · simp
        · exact ih _ _ _ _ _ _
      · split
        · split
          · simp
          · exact ih _ _ _ _ _ _
        · split
          · split
            · simp
            · split
              · split
                · simp
                · split
                  · simp
                  · exact ih _ _ _ _ _ _
              · rename_i hmiss
                split
                · rename_i t st' hpr
                  split
                  · simp
                  · exact ih _ _ _ _ _ _
                · rename_i e st' hpr
                  intro hcontra
                  have h2 := hpref st (n2 - 1, get_col_by_char st c) m hmiss
                  rw [hpr] at h2
                  simp only at h2 hcontra
                  exact h2 (by rw [hcontra])
          · simp

theorem parse_reference_no_logic :
    ∀ (fuel : Nat) (st : St) (coords : Int × Int) (m : String),
      clookup st.map_ref_cells (get_cell_by_coords coords) = none →
      (parse_reference fuel st coords).1 ≠ .error (.logic_error m) := by
  intro fuel
  induction fuel with
  | zero =>
    intro st coords m hmiss
    simp [parse_reference]
  | succ n ih =>
    intro st coords m hmiss
    simp only [parse_reference]
    split
    · rename_i hsome
      rw [hmiss] at hsome
      simp at hsome
    · split
      · split
        · simp
        · simp
        · rename_i e st2 heq
          have hfst := congrArg Prod.fst heq.symm
          simp only [Prod.fst] at hfst
          intro hcontra
          simp only at hcontra
          rw [hcontra] at hfst
          exact parse_loop_no_logic (parse_reference n) ih _ _ _ _ _ _ m hfst.symm
      · split
        · simp
        · split
          · simp
          · split
            · simp
            · simp

theorem parse_expr_no_logic (fuel : Nat) (st : St) (s : String) (m : String) :
    (parse_expr fuel st s).1 ≠ .error (.logic_error m) :=
  parse_loop_no_logic (parse_reference fuel) (parse_reference_no_logic fuel) _ _ _ _ _ _ _

theorem run_no_diags :
    ∀ (exprs : List Expr) (fuel : Nat) (st : St) (res : St × List String),
      run fuel st exprs = some res → res.2 = [] := by
  intro exprs
  induction exprs with
  | nil =>
    intro fuel st res hr
    simp only [run, Option.some_inj] at hr
    rw [← hr]
  | cons e rest ih =>
    intro fuel st res hr
    simp only [run] at hr
    split at hr
    · exact ih _ _ _ hr
    · split at hr
      · exact ih _ _ _ hr
      · exact ih _ _ _ hr
      · rename_i m st2 heq
        have hfst := congrArg Prod.fst heq
        simp only [Prod.fst] at hfst
        exact absurd hfst (parse_expr_no_logic _ _ _ _)
      · exact absurd hr (by simp)

/-- reserve: the emplace of a Pending entry before evaluation (eltab.cpp
lines 14 and 45). -/
def reserve (st : St) (key : String) : St :=
  { st with map_ref_cells := cset st.map_ref_cells key .T_UNDEFINED }

/-- commit: the final assignment to the reserved entry (eltab.cpp lines 28
and 71). -/
def commit (st : St) (key : String) (tok : Token) : St :=
  { st with map_ref_cells := cset st.map_ref_cells key tok }

/-
The claims.
-/

/-- C1: the claim states that get_cell_by_coords renders column 26 to 51 as
the letters of the second block (so column 26 would give the identity a1) and
that get_col_by_char inverts the column letter for every grid.  The code
disagrees: get_cell_by_coords computes the character 97 + col (code point 123
for column 26, which is not a letter at all, instead of 97 + (col - 26)), and
in a 52-column grid get_col_by_char sends the letter a to column 0, not 26,
while the identity of column 0 starts with A.  This theorem evaluates the
code at the failing inputs: the identity of (row 0, column 26) is the
two-character string with code points 123 and 49, not a1, and in a 52-column
grid the letter a (code point 97) is accepted as a reference head but mapped
to column 0, whose own identity is A1. -/
theorem c1_column_encoding_bug :
    get_cell_by_coords (0, 26) = String.mk [Char.ofNat 123, Char.ofNat 49] ∧
    get_cell_by_coords (0, 26) ≠ ("a1") ∧
    is_ref_candidate ⟨3, 52, [], []⟩ (Char.ofNat 97) = true ∧
    get_col_by_char ⟨3, 52, [], []⟩ (Char.ofNat 97) = 0 ∧
    get_cell_by_coords (0, 0) = ("A1") := by
  refine ⟨rfl, by decide, rfl, rfl, rfl⟩

/-- C2 counterexample: the claim says every application of evaluate with the
division operator and right operand 0 fails with the non-finite-result
error.  It does not when the left operand is also 0: the quotient 0.0 / 0.0
is NaN, isinf does not flag NaN, so the operation raises no error at all
(the NaN is then cast to int). -/
theorem c2_division_by_zero_counterexample :
    evaluate (.T_NUMBER 0) (.T_NUMBER 0) .OP_DIV ≠ .error ("#E_INFINITE") := by
  intro h
  simp [evaluate] at h

/-- C2 amended: for every application of evaluate with the division operator
whose right operand is 0 and whose left operand is nonzero, the operation
fails with the #E_INFINITE error; in particular the formula =5/0 commits the
error code #E_INFINITE as the cell text, which get_value renders as the
display text. -/
theorem c2_division_by_zero_amended :
    (∀ l : Int, l ≠ 0 →
      evaluate (.T_NUMBER l) (.T_NUMBER 0) .OP_DIV = .error ("#E_INFINITE")) ∧
    run 20 ⟨1, 1, [[("=5/0")]], []⟩ [⟨(0, 0), ("5/0")⟩] =
      some (⟨1, 1, [[("=5/0")]], [(("A1"), .T_STRING ("#E_INFINITE"))]⟩, []) ∧
    get_value ⟨1, 1, [[("=5/0")]], [(("A1"), .T_STRING ("#E_INFINITE"))]⟩ (0, 0) =
      ("#E_INFINITE") := by
  refine ⟨?_, rfl, rfl⟩
  intro l h
  simp [evaluate, h]

/-- C2 witness: the amended statement applied at left operand 5. -/
theorem c2_division_by_zero_witness :
    evaluate (.T_NUMBER 5) (.T_NUMBER 0) .OP_DIV = .error ("#E_INFINITE") :=
  c2_division_by_zero_amended.1 5 (by decide)

/-- C3: on the two-cell grid where A1 holds =B1 and B1 holds =A1, run
terminates and commits the #E_CROSS_REF error text to both cells with no
diagnostics; and, in general, whenever the scan loop meets a reference whose
cache entry is a Pending (incomplete) token, it raises the #E_CROSS_REF
domain error at once, leaving the state untouched and calling no resolver. -/
theorem c3_cycle_detection :
    (run 20 ⟨1, 2, [[("=B1"), ("=A1")]], []⟩ [⟨(0, 0), ("B1")⟩, ⟨(0, 1), ("A1")⟩] =
      some (⟨1, 2, [[("=B1"), ("=A1")]],
        [(("A1"), .T_STRING ("#E_CROSS_REF")), (("B1"), .T_STRING ("#E_CROSS_REF"))]⟩, [])) ∧
    (∀ (pref : St → Int × Int → Except Exc Token × St) (fuel : Nat) (st : St)
      (toks : List Token) (op : oper) (tok t : Token) (c : Char) (cs : List Char)
      (n2 : Int) (rest2 : List Char),
      is_operator c = false → c.isDigit = false → is_ref_candidate st c = true →
      (match cs with
       | [] => ((0 : Int), ([] : List Char))
       | c2 :: cs2 => get_number_by_str c2 cs2 0) = (n2, rest2) →
      ¬(n2 - 1 + 1 > st.m_rows ∨ n2 - 1 < 0) →
      clookup st.map_ref_cells (get_cell_by_coords (n2 - 1, get_col_by_char st c)) = some t →
      t.is_incomplete = true →
      parse_loop pref (fuel + 1) st toks op tok (c :: cs) =
        (.error (.domain_error ("#E_CROSS_REF")), st)) := by
  refine ⟨rfl, ?_⟩
  intro pref fuel st toks op tok t c cs n2 rest2 h1 h2 h3 h4 h5 h6 h7
  simp only [parse_loop, h4, h1, h2, h3]
  rw [if_neg h5, h6]
  simp [h7]

/-- C3 witness: the pending-reference step applied to a concrete state whose
cache holds a Pending entry for A1. -/
theorem c3_cycle_detection_witness :
    parse_loop (fun st _ => (.error .fuel_out, st)) 1
      ⟨1, 1, [[("")]], [(("A1"), .T_UNDEFINED)]⟩ [] .OP_NONE .T_UNDEFINED
      [Char.ofNat 65, Char.ofNat 49] =
    (.error (.domain_error ("#E_CROSS_REF")), ⟨1, 1, [[("")]], [(("A1"), .T_UNDEFINED)]⟩) :=
  c3_cycle_detection.2 (fun st _ => (.error .fuel_out, st)) 0
    ⟨1, 1, [[("")]], [(("A1"), .T_UNDEFINED)]⟩ [] .OP_NONE .T_UNDEFINED .T_UNDEFINED
    (Char.ofNat 65) [Char.ofNat 49] 1 []
    (by decide) (by decide) (by decide) (by decide) (by decide) (by rfl) (by decide)

/-- C4 counterexample: the claim says that after run every formula cell's
cache entry is a Number or Text token, and that a Pending token can survive
run only for a cell on which an internal (logic) error occurred.  On the
one-cell grid whose formula has an empty body (the raw cell is just the =
marker), run completes with no diagnostics at all, yet the committed entry
for A1 is the Pending (T_UNDEFINED) token. -/
theorem c4_pending_after_run_counterexample :
    run 20 ⟨1, 1, [[("=")]], []⟩ [⟨(0, 0), ("")⟩] =
      some (⟨1, 1, [[("=")]], [(("A1"), Token.T_UNDEFINED)]⟩, []) ∧
    Token.T_UNDEFINED.is_incomplete = true := ⟨rfl, rfl⟩

/-- C4 amended: after a successful run every formula cell of the work list
has a cache entry; a domain error raised while evaluating a formula is
converted, at the boundary of the cell that reserved the entry, into a Text
token carrying the error code, after which the remaining work list is
processed unchanged (so one bad formula never aborts the rest); the entry
holds a resolved displayable token except that it may be the Pending
(T_UNDEFINED) token when a logic error occurred for that cell or when the
formula's evaluation itself returned the default Undefined token, as the
empty formula body does: on the grid with A1 = and B1 =1+1, run leaves A1
Pending with no diagnostics while B1 still resolves to 2. -/
theorem c4_run_boundary_amended :
    (∀ (exprs : List Expr) (fuel : Nat) (st : St) (res : St × List String),
      run fuel st exprs = some res →
      ∀ e ∈ exprs, (clookup res.1.map_ref_cells (get_cell_by_coords e.m_coords)).isSome) ∧
    (∀ (fuel : Nat) (st : St) (e : Expr) (rest : List Expr) (m : String) (st2 : St),
      (clookup st.map_ref_cells (get_cell_by_coords e.m_coords)).isSome = false →
      parse_expr fuel (reserve st (get_cell_by_coords e.m_coords)) e.m_value =
        (.error (.domain_error m), st2) →
      run fuel st (e :: rest) =
        run fuel (commit st2 (get_cell_by_coords e.m_coords) (.T_STRING m)) rest) ∧
    run 20 ⟨1, 2, [[("="), ("=1+1")]], []⟩ [⟨(0, 0), ("")⟩, ⟨(0, 1), ("1+1")⟩] =
      some (⟨1, 2, [[("="), ("=1+1")]],
        [(("A1"), .T_UNDEFINED), (("B1"), .T_NUMBER 2)]⟩, []) := by
  refine ⟨run_covers, ?_, rfl⟩
  intro fuel st e rest m st2 h1 h2
  simp only [reserve] at h2
  simp only [run, commit, h1, h2]
  simp

/-- C4 witness: the boundary-conversion step applied to the concrete grid
whose only formula is =5/0. -/
theorem c4_run_boundary_witness :
    run 20 ⟨1, 1, [[("=5/0")]], []⟩ [⟨(0, 0), ("5/0")⟩] =
      run 20 (commit ⟨1, 1, [[("=5/0")]], [(("A1"), .T_UNDEFINED)]⟩
        (get_cell_by_coords (0, 0)) (.T_STRING ("#E_INFINITE"))) [] :=
  c4_run_boundary_amended.2.1 20 ⟨1, 1, [[("=5/0")]], []⟩ ⟨(0, 0), ("5/0")⟩ []
    ("#E_INFINITE") ⟨1, 1, [[("=5/0")]], [(("A1"), .T_UNDEFINED)]⟩ (by rfl) (by rfl)

/-- C5: parse_expr reduces strictly left to right with flat precedence: the
formula =2+3*4 evaluates to 20 and not to 14; and, in general, as soon as
the operand stack holds one operand, an operator is pending and a second
operand is pushed, the pending operator is applied at once (the stack
collapses to the single result and the pending operator is cleared), and a
failing reduction surfaces the evaluation error immediately. -/
theorem c5_flat_left_to_right :
    (parse_expr 5 ⟨1, 1, [[("")]], []⟩ ("2+3*4")).1 = .ok (.T_NUMBER 20) ∧
    (.T_NUMBER 20 : Token) ≠ .T_NUMBER 14 ∧
    (∀ (l newTok t2 : Token) (op : oper), op ≠ .OP_NONE → op ≠ .OP_UNKNOWN →
      evaluate l newTok op = .ok t2 →
      push_reduce [l] op newTok = .ok ([t2], .OP_NONE, some t2)) ∧
    (∀ (l newTok : Token) (op : oper) (m : String), op ≠ .OP_NONE → op ≠ .OP_UNKNOWN →
      evaluate l newTok op = .error m →
      push_reduce [l] op newTok = .error m) := by
  refine ⟨rfl, by decide, ?_, ?_⟩
  · intro l newTok t2 op h1 h2 hev
    cases op
    · exact absurd rfl h1
    · simp [push_reduce, hev]
    · simp [push_reduce, hev]
    · simp [push_reduce, hev]
    · simp [push_reduce, hev]
    · exact absurd rfl h2
  · intro l newTok op m h1 h2 hev
    cases op
    · exact absurd rfl h1
    · simp [push_reduce, hev]
    · simp [push_reduce, hev]
    · simp [push_reduce, hev]
    · simp [push_reduce, hev]
    · exact absurd rfl h2

/-- C5 witness: the immediate-reduction rule applied to the stack holding 2
with pending + and incoming 3. -/
theorem c5_flat_left_to_right_witness :
    push_reduce [Token.T_NUMBER 2] .OP_ADD (.T_NUMBER 3) =
      .ok ([Token.T_NUMBER 5], .OP_NONE, some (.T_NUMBER 5)) :=
  c5_flat_left_to_right.2.2.1 (.T_NUMBER 2) (.T_NUMBER 3) (.T_NUMBER 5) .OP_ADD
    (by decide) (by decide) (by rfl)

/-- C6: every binary operation truncates its numeric result toward zero to an
integer immediately, not just at formula completion: =7/2 yields 3, =7/2+1
yields 4 (the truncation happens after the division, before the addition),
and in general division by a nonzero divisor produces the truncated quotient
Int.tdiv, whose rounding is toward zero as the two sample evaluations of
Int.tdiv at 7/2 and -7/2 exhibit. -/
theorem c6_truncation_after_every_op :
    (parse_expr 5 ⟨1, 1, [[("")]], []⟩ ("7/2")).1 = .ok (.T_NUMBER 3) ∧
    (parse_expr 5 ⟨1, 1, [[("")]], []⟩ ("7/2+1")).1 = .ok (.T_NUMBER 4) ∧
    (∀ l r : Int, r ≠ 0 →
      evaluate (.T_NUMBER l) (.T_NUMBER r) .OP_DIV = .ok (.T_NUMBER (Int.tdiv l r))) ∧
    Int.tdiv 7 2 = 3 ∧ Int.tdiv (-7) 2 = -3 := by
  refine ⟨rfl, rfl, ?_, by decide, by decide⟩
  intro l r h
  simp [evaluate, h]

/-- C6 witness: the division rule applied at 7 divided by 2. -/
theorem c6_truncation_witness :
    evaluate (.T_NUMBER 7) (.T_NUMBER 2) .OP_DIV = .ok (.T_NUMBER 3) :=
  c6_truncation_after_every_op.2.2.1 7 2 (by decide)

/-- C7: the cache protocol.  (i) Entries are never removed: every key with a
cache entry before a parse_expr call or a successful run still has one
afterwards.  (ii) A resolved (non-Pending) entry is never overwritten: its
exact token survives any parse_expr call and any successful run, so each cell
is committed at most once and is never re-resolved.  (iii) A reference whose
cell already holds a resolved token is answered from the cache: the scan
step pushes the cached token and continues with the state unchanged and
without invoking any resolver.  (iv) The Pending entry is inserted strictly
before the recursive evaluation begins, observably: the directly
self-referential cell A1 = =A1 is resolved to the #E_CROSS_REF text instead
of recursing, the reservation having been made before the nested scan. -/
theorem c7_cache_protocol :
    (∀ (fuel : Nat) (st : St) (s : String) (key : String),
      (clookup st.map_ref_cells key).isSome →
      (clookup ((parse_expr fuel st s).2).map_ref_cells key).isSome) ∧
    (∀ (exprs : List Expr) (fuel : Nat) (st : St) (res : St × List String) (key : String),
      run fuel st exprs = some res →
      (clookup st.map_ref_cells key).isSome →
      (clookup res.1.map_ref_cells key).isSome) ∧
    (∀ (fuel : Nat) (st : St) (s : String) (key : String) (v : Token),
      clookup st.map_ref_cells key = some v → v.is_incomplete = false →
      clookup ((parse_expr fuel st s).2).map_ref_cells key = some v) ∧
    (∀ (exprs : List Expr) (fuel : Nat) (st : St) (res : St × List String)
      (key : String) (v : Token),
      run fuel st exprs = some res →
      clookup st.map_ref_cells key = some v → v.is_incomplete = false →
      clookup res.1.map_ref_cells key = some v) ∧
    (∀ (pref : St → Int × Int → Except Exc Token × St) (fuel : Nat) (st : St)
      (toks toks' : List Token) (op op' : oper) (tok t : Token) (tokOpt : Option Token)
      (c : Char) (cs : List Char) (n2 : Int) (rest2 : List Char),
      is_operator c = false → c.isDigit = false → is_ref_candidate st c = true →
      (match cs with
       | [] => ((0 : Int), ([] : List Char))
       | c2 :: cs2 => get_number_by_str c2 cs2 0) = (n2, rest2) →
      ¬(n2 - 1 + 1 > st.m_rows ∨ n2 - 1 < 0) →
      clookup st.map_ref_cells (get_cell_by_coords (n2 - 1, get_col_by_char st c)) = some t →
      t.is_incomplete = false →
      push_reduce toks op t = .ok (toks', op', tokOpt) →
      parse_loop pref (fuel + 1) st toks op tok (c :: cs) =
        parse_loop pref fuel st toks' op' (tokOpt.getD t) rest2) ∧
    parse_reference 5 ⟨1, 1, [[("=A1")]], []⟩ (0, 0) =
      (.ok (.T_STRING ("#E_CROSS_REF")),
       ⟨1, 1, [[("=A1")]], [(("A1"), .T_STRING ("#E_CROSS_REF"))]⟩) := by
  refine ⟨parse_expr_mono, run_mono, parse_expr_preserve, run_preserve, ?_, rfl⟩
  intro pref fuel st toks toks' op op' tok t tokOpt c cs n2 rest2 h1 h2 h3 h4 h5 h6 h7 h8
  simp only [parse_loop, h4, h1, h2, h3]
  rw [if_neg h5, h6]
  simp [h7, h8]

/-- C7 witness: the cache-hit step applied to a state whose cache already
resolves A1 to the number 7; the scan consumes the reference, pushes the
cached token and continues on the same state. -/
theorem c7_cache_protocol_witness :
    parse_loop (fun st _ => (.error .fuel_out, st)) 1
      ⟨1, 1, [[("7")]], [(("A1"), .T_NUMBER 7)]⟩ [] .OP_NONE .T_UNDEFINED
      [Char.ofNat 65, Char.ofNat 49] =
    parse_loop (fun st _ => (.error .fuel_out, st)) 0
      ⟨1, 1, [[("7")]], [(("A1"), .T_NUMBER 7)]⟩ [Token.T_NUMBER 7] .OP_NONE
      (.T_NUMBER 7) [] :=
  c7_cache_protocol.2.2.2.2.1 (fun st _ => (.error .fuel_out, st)) 0
    ⟨1, 1, [[("7")]], [(("A1"), .T_NUMBER 7)]⟩ [] [Token.T_NUMBER 7] .OP_NONE .OP_NONE
    .T_UNDEFINED (.T_NUMBER 7) none (Char.ofNat 65) [Char.ofNat 49] 1 []
    (by decide) (by decide) (by decide) (by decide) (by decide) (by rfl) (by decide) (by rfl)

/-- C8: a formula whose scan ends with a dangling unapplied operator raises
no error: the result is the operand last pushed, so both =5+ and =2+3+
evaluate to 5 (for the latter, 2+3 reduced to 5 and the trailing + was then
recorded as pending but never applied). -/
theorem c8_dangling_operator :
    (parse_expr 5 ⟨1, 1, [[("")]], []⟩ ("5+")).1 = .ok (.T_NUMBER 5) ∧
    (parse_expr 5 ⟨1, 1, [[("")]], []⟩ ("2+3+")).1 = .ok (.T_NUMBER 5) := ⟨rfl, rfl⟩

/-- C9: a formula with empty body raises no error and returns the default
T_UNDEFINED token for every fuel and state; on the grid with A1 = and
B1 =A1, run commits that Pending-tagged token for A1, get_value renders A1
as the empty string, and B1, which merely references A1, is resolved to the
#E_CROSS_REF error text although no reference cycle exists. -/
theorem c9_empty_formula :
    (∀ (fuel : Nat) (st : St), parse_expr fuel st ("") = (.ok .T_UNDEFINED, st)) ∧
    run 20 ⟨1, 2, [[("="), ("=A1")]], []⟩ [⟨(0, 0), ("")⟩, ⟨(0, 1), ("A1")⟩] =
      some (⟨1, 2, [[("="), ("=A1")]],
        [(("A1"), .T_UNDEFINED), (("B1"), .T_STRING ("#E_CROSS_REF"))]⟩, []) ∧
    get_value ⟨1, 2, [[("="), ("=A1")]],
      [(("A1"), .T_UNDEFINED), (("B1"), .T_STRING ("#E_CROSS_REF"))]⟩ (0, 0) = ("") ∧
    get_value ⟨1, 2, [[("="), ("=A1")]],
      [(("A1"), .T_UNDEFINED), (("B1"), .T_STRING ("#E_CROSS_REF"))]⟩ (0, 1) =
      ("#E_CROSS_REF") :=
  ⟨fun _ _ => rfl, rfl, rfl, rfl⟩

/-- C10: under the normal call protocol the internal-error branch of
parse_reference is unreachable and the logic_error handler of run never
fires: whenever parse_reference is entered on a cell with no cache entry (the
only way parse_expr ever calls it), it does not raise the internal
logic_error; parse_expr never propagates a logic_error at all; and every
successful run returns an empty diagnostic list. -/
theorem c10_no_internal_error :
    (∀ (fuel : Nat) (st : St) (coords : Int × Int) (m : String),
      clookup st.map_ref_cells (get_cell_by_coords coords) = none →
      (parse_reference fuel st coords).1 ≠ .error (.logic_error m)) ∧
    (∀ (fuel : Nat) (st : St) (s : String) (m : String),
      (parse_expr fuel st s).1 ≠ .error (.logic_error m)) ∧
    (∀ (exprs : List Expr) (fuel : Nat) (st : St) (res : St × List String),
      run fuel st exprs = some res → res.2 = []) :=
  ⟨parse_reference_no_logic, parse_expr_no_logic, run_no_diags⟩

/-- C10 witness: the protocol statement applied to a concrete uncached cell
and to the concrete cyclic grid, whose run reports no diagnostics. -/
theorem c10_no_internal_error_witness :
    (parse_reference 3 ⟨1, 1, [[("5")]], []⟩ (0, 0)).1 ≠
      .error (.logic_error ("Internal error: parse_reference()")) ∧
    ([] : List String) = [] :=
  ⟨c10_no_internal_error.1 3 ⟨1, 1, [[("5")]], []⟩ (0, 0)
      ("Internal error: parse_reference()") (by rfl),
   c10_no_internal_error.2.2 [⟨(0, 0), ("B1")⟩]
      20 ⟨1, 2, [[("=B1"), ("=A1")]], []⟩
      (⟨1, 2, [[("=B1"), ("=A1")]],
        [(("A1"), .T_STRING ("#E_CROSS_REF")), (("B1"), .T_STRING ("#E_CROSS_REF"))]⟩, [])
      (by rfl)⟩

/-- C9 witness: the empty-body statement applied at a concrete fuel and
state. -/
theorem c9_empty_formula_witness :
    parse_expr 3 ⟨1, 1, [[("=")]], []⟩ ("") = (.ok .T_UNDEFINED, ⟨1, 1, [[("=")]], []⟩) :=
  c9_empty_formula.1 3 ⟨1, 1, [[("=")]], []⟩
